import Mathlib

/-
  Verification development for the obsidian-vectorize plugin.

  The repository ships two backend variants of the same plugin:
  a Chroma-backed variant (src/main.ts) and a Milvus-backed variant
  (src/unnamed/part_000). The network boundary is modelled by passing
  the decoded JSON response of each request as an explicit argument
  (with `Except Unit` for a thrown transport error and `Option` for
  absent JSON fields), so every function below is the pure
  post-response logic of the corresponding TypeScript function.
  JavaScript truthiness on the relevant values (empty string, zero,
  undefined) is translated explicitly by the js* helpers.
-/

/-- JavaScript whitespace characters recognised by String.prototype.trim
(the common WhiteSpace and LineTerminator code points). -/
def isJsWhitespace (c : Char) : Bool :=
  c == ' ' || c == '\t' || c == '\n' || c == '\r' || c == '\x0b' || c == '\x0c' ||
  c == '\u00A0' || c == '\uFEFF'

/-- Model of JavaScript String.prototype.trim: drop whitespace from both ends. -/
def jsTrim (s : String) : String :=
  (((s.toList.dropWhile isJsWhitespace).reverse.dropWhile isJsWhitespace).reverse).asString

/-- JavaScript `x || 0` on a possibly-undefined number: undefined and 0 are falsy. -/
def jsOrRat (x : Option Rat) : Rat :=
  match x with
  | none => 0
  | some v => if v = 0 then 0 else v

/-- JavaScript truthiness test `!x` on a possibly-undefined string:
undefined and the empty string are falsy. -/
def jsFalsyStr (x : Option String) : Bool :=
  match x with
  | none => true
  | some s => decide (s = "")

/-- JavaScript `a > b` where `b` may be undefined: comparing a number with
undefined coerces to NaN and every comparison with NaN is false. -/
def jsGtOpt (a : Int) (b : Option Int) : Bool :=
  match b with
  | none => false
  | some t => decide (a > t)

/-- The guard `excludePath && filePath === excludePath` shared by both
searchSimilar variants: an absent or empty exclusion key is falsy and
disables the exclusion entirely. -/
def exclMatches (excl : Option String) (fp : Option String) : Bool :=
  match excl with
  | none => false
  | some e => if e = "" then false else decide (fp = some e)

/-- Metadata object stored with each Chroma record. -/
structure ChromaMeta where
  file_path : Option String
  content_preview : Option String
  modified_time : Option Int
deriving DecidableEq

/-- Decoded JSON of the Chroma `/get` response used by checkIfNeedsUpdate. -/
structure ChromaGetData where
  ids : Option (List String)
  metadatas : Option (List (Option ChromaMeta))
deriving DecidableEq

/-- Decoded JSON of the Chroma `/query` response used by searchSimilar. -/
structure ChromaQueryData where
  ids : Option (List (List String))
  metadatas : Option (List (List (Option ChromaMeta)))
  distances : Option (List (List Rat))
deriving DecidableEq

/-- The SimilarNote result record. `filePath` is an Option because the
Milvus variant can push a hit whose file_path field is undefined. -/
structure SimilarNote where
  filePath : Option String
  score : Rat
  content : String
deriving DecidableEq

/-- One hit inside a result group of the Milvus `/entities/search` response. -/
structure MilvusHit where
  file_path : Option String
  content_preview : Option String
  distance : Option Rat
deriving DecidableEq

/-- One row of the Milvus `/entities/query` response used by checkIfNeedsUpdate. -/
structure MilvusRow where
  modified_time : Option Int
deriving DecidableEq

/-- checkIfNeedsUpdate of the Chroma variant (src/main.ts):
the response is looked up by id; a missing or empty id list, missing or
null metadata, or a falsy modified_time (absent or 0) all report stale;
otherwise the check is a strict mtime comparison. The surrounding
try/catch maps any thrown error to stale. -/
def checkIfNeedsUpdateChroma (mtime : Int) (resp : Except Unit ChromaGetData) : Bool :=
  match resp with
  | .error _ => true
  | .ok data =>
    match data.ids with
    | none => true
    | some ids =>
      if ids.length = 0 then true
      else
        match data.metadatas.bind List.head? with
        | none => true
        | some none => true
        | some (some m) =>
          match m.modified_time with
          | none => true
          | some t => if t = 0 then true else decide (mtime > t)

/-- checkIfNeedsUpdate of the Milvus variant (src/unnamed/part_000):
an absent or empty data array reports stale; otherwise the code compares
`file.stat.mtime > data[0].modified_time` with no presence check on the
stored time, so an undefined stored time makes the comparison false. -/
def checkIfNeedsUpdateMilvus (mtime : Int) (resp : Except Unit (Option (List MilvusRow))) : Bool :=
  match resp with
  | .error _ => true
  | .ok data =>
    match data with
    | none => true
    | some rows =>
      match rows with
      | [] => true
      | row :: _ => jsGtOpt mtime row.modified_time

/-- `metadatas[i]?.file_path` of the Chroma searchSimilar loop. -/
def chromaFilePathAt (metas : List (Option ChromaMeta)) (i : Nat) : Option String :=
  ((metas.get? i).join).bind ChromaMeta.file_path

/-- `metadatas[i]?.content_preview || ''` of the Chroma searchSimilar loop. -/
def chromaContentAt (metas : List (Option ChromaMeta)) (i : Nat) : String :=
  (((metas.get? i).join).bind ChromaMeta.content_preview).getD ""

/-- `1 - (distances[i] || 0)`: the score pushed by the Chroma variant. -/
def chromaScore (d : Option Rat) : Rat :=
  1 - jsOrRat d

/-- `result.distance || 0`: the score pushed by the Milvus variant. -/
def milvusScore (d : Option Rat) : Rat :=
  jsOrRat d

/-- `data.metadatas?.[0] || []` of the Chroma searchSimilar. -/
def chromaMetas (data : ChromaQueryData) : List (Option ChromaMeta) :=
  (data.metadatas.bind List.head?).getD []

/-- `data.distances?.[0] || []` of the Chroma searchSimilar. -/
def chromaDists (data : ChromaQueryData) : List Rat :=
  (data.distances.bind List.head?).getD []

/-- The candidate loop of the Chroma searchSimilar: iterate over the index
range of ids[0], skip falsy or excluded file paths, push the note, and
break once the accumulated length reaches the limit. -/
def chromaCollect (excl : Option String) (limit : Nat)
    (metas : List (Option ChromaMeta)) (dists : List Rat) :
    List Nat → List SimilarNote → List SimilarNote
  | [], acc => acc
  | i :: rest, acc =>
    if jsFalsyStr (chromaFilePathAt metas i) || exclMatches excl (chromaFilePathAt metas i) then
      chromaCollect excl limit metas dists rest acc
    else if limit ≤ (acc ++
        [SimilarNote.mk (chromaFilePathAt metas i) (chromaScore (dists.get? i))
          (chromaContentAt metas i)]).length then
      acc ++ [SimilarNote.mk (chromaFilePathAt metas i) (chromaScore (dists.get? i))
          (chromaContentAt metas i)]
    else
      chromaCollect excl limit metas dists rest
        (acc ++ [SimilarNote.mk (chromaFilePathAt metas i) (chromaScore (dists.get? i))
          (chromaContentAt metas i)])

/-- Post-processing of the Chroma searchSimilar (src/main.ts): the early
return on `!data.ids || !data.ids[0]`, then the candidate loop. -/
def searchSimilarChroma (data : ChromaQueryData) (limit : Nat) (excl : Option String) :
    List SimilarNote :=
  match data.ids with
  | none => []
  | some [] => []
  | some (ids0 :: _) =>
    chromaCollect excl limit (chromaMetas data) (chromaDists data) (List.range ids0.length) []

/-- The note pushed for one Milvus hit. -/
def milvusNote (h : MilvusHit) : SimilarNote :=
  ⟨h.file_path, milvusScore h.distance, h.content_preview.getD ""⟩

/-- The inner `for (const result of item)` loop of the Milvus searchSimilar:
skip only the excluded path, push every other hit (missing keys included),
and break out of this group once the accumulated length reaches the limit. -/
def milvusInner (excl : Option String) (limit : Nat) :
    List MilvusHit → List SimilarNote → List SimilarNote
  | [], acc => acc
  | h :: rest, acc =>
    if exclMatches excl h.file_path then milvusInner excl limit rest acc
    else if limit ≤ (acc ++ [milvusNote h]).length then acc ++ [milvusNote h]
    else milvusInner excl limit rest (acc ++ [milvusNote h])

/-- The outer `for (const item of searchResults)` loop of the Milvus
searchSimilar: null or empty groups are skipped; the inner break leaves
only the current group, so the outer loop always continues. -/
def milvusOuter (excl : Option String) (limit : Nat) :
    List (Option (List MilvusHit)) → List SimilarNote → List SimilarNote
  | [], acc => acc
  | none :: rest, acc => milvusOuter excl limit rest acc
  | some hits :: rest, acc =>
    if hits.length = 0 then milvusOuter excl limit rest acc
    else milvusOuter excl limit rest (milvusInner excl limit hits acc)

/-- Post-processing of the Milvus searchSimilar (src/unnamed/part_000):
`response.json.data || []` then the nested loops. -/
def searchSimilarMilvus (data : Option (List (Option (List MilvusHit)))) (limit : Nat)
    (excl : Option String) : List SimilarNote :=
  milvusOuter excl limit (data.getD []) []

/-- Observable actions of an operation: user notices and network calls
(one embedCall per Ollama request, one storeCall per vector-store request). -/
inductive Eff where
  | notice (msg : String)
  | embedCall (text : String)
  | storeCall (op : String)
deriving DecidableEq

/-- Network calls are everything except notices. -/
def Eff.isNetwork : Eff → Bool
  | .notice _ => false
  | .embedCall _ => true
  | .storeCall _ => true

/-- Decoded JSON of the Ollama `/api/embed` response. -/
structure OllamaEmbedResp where
  embeddings : Option (List (List Rat))
  embedding : Option (List Rat)
deriving DecidableEq

/-- generateEmbedding (identical in both variants): prefer a non-empty
`embeddings` array, fall back to a present `embedding` field (an array is
truthy in JavaScript even when empty), otherwise throw; a transport error
is rethrown. -/
def generateEmbedding (resp : Except Unit OllamaEmbedResp) : Except Unit (List Rat) :=
  match resp with
  | .error _ => .error ()
  | .ok d =>
    match d.embeddings with
    | some es =>
      if 0 < es.length then .ok (es.headD [])
      else
        match d.embedding with
        | some e => .ok e
        | none => .error ()
    | none =>
      match d.embedding with
      | some e => .ok e
      | none => .error ()

/-- Responses the Chroma ensureCollection may receive: the collection list
(HTTP status and the decoded name list, `none` for a malformed body) and
the create response status. -/
structure ChromaEnv where
  listResp : Except Unit (Nat × Option (List String))
  createResp : Except Unit Nat

/-- ensureCollection of the Chroma variant: memoised on the initialized
flag; lists collections, creates the collection when absent, and reports
(ok, new initialized flag, effects). Any failure is caught, noticed, and
reported as not ok. -/
def ensureCollection (inited : Bool) (name : String) (env : ChromaEnv) :
    Bool × Bool × List Eff :=
  if inited then (true, true, [])
  else
    match env.listResp with
    | .error _ =>
      (false, false, [Eff.storeCall "listCollections", Eff.notice "Error connecting to Chroma"])
    | .ok (status, names) =>
      if status ≠ 200 then
        (false, false, [Eff.storeCall "listCollections", Eff.notice "Error connecting to Chroma"])
      else
        match names with
        | none =>
          (false, false, [Eff.storeCall "listCollections", Eff.notice "Error connecting to Chroma"])
        | some ns =>
          if name ∈ ns then (true, true, [Eff.storeCall "listCollections"])
          else
            match env.createResp with
            | .error _ =>
              (false, false,
                [Eff.storeCall "listCollections", Eff.notice "Creating Chroma collection...",
                 Eff.storeCall "createCollection", Eff.notice "Error connecting to Chroma"])
            | .ok cs =>
              if cs = 200 ∨ cs = 201 then
                (true, true,
                  [Eff.storeCall "listCollections", Eff.notice "Creating Chroma collection...",
                   Eff.storeCall "createCollection",
                   Eff.notice "Chroma collection created successfully"])
              else
                (false, false,
                  [Eff.storeCall "listCollections", Eff.notice "Creating Chroma collection...",
                   Eff.storeCall "createCollection", Eff.notice "Error connecting to Chroma"])

/-- searchSimilar of the Chroma variant as an effectful run: an
ensureCollection failure short-circuits to an empty ok result; otherwise
the query request is issued and its response post-processed. -/
def searchSimilarRun (inited : Bool) (name : String) (env : ChromaEnv)
    (qresp : Except Unit ChromaQueryData) (limit : Nat) (excl : Option String) :
    Except Unit (List SimilarNote) × Bool × List Eff :=
  let e := ensureCollection inited name env
  if e.1 = false then (.ok [], e.2.1, e.2.2)
  else
    match qresp with
    | .error _ => (.error (), e.2.1, e.2.2 ++ [Eff.storeCall "query"])
    | .ok data => (.ok (searchSimilarChroma data limit excl), e.2.1, e.2.2 ++ [Eff.storeCall "query"])

/-- querySimilarNotes: the guard `!query || query.trim().length === 0`
rejects the query with a notice before any network interaction; otherwise
the query is embedded and searched with limit 10 and no exclusion. -/
def querySimilarNotes (query : String) (inited : Bool) (name : String) (env : ChromaEnv)
    (embResp : Except Unit OllamaEmbedResp) (qresp : Except Unit ChromaQueryData) : List Eff :=
  if query.isEmpty = true ∨ (jsTrim query).length = 0 then
    [Eff.notice "Please enter a query"]
  else
    let pre := [Eff.notice "Searching for similar notes...", Eff.embedCall query]
    match generateEmbedding embResp with
    | .error _ => pre ++ [Eff.notice "Error: failed to generate embedding"]
    | .ok _ =>
      let s := searchSimilarRun inited name env qresp 10 none
      match s.1 with
      | .error _ => pre ++ s.2.2 ++ [Eff.notice "Error: search failed"]
      | .ok rs =>
        pre ++ s.2.2 ++ (if rs.length = 0 then [Eff.notice "No similar notes found"] else [])

/-- Outcome of the per-file loop of recomputeAllVectors: the processed and
error tallies, the files whose vectorizeNote was attempted (in order), and
the interleaved effects. -/
structure BatchResult where
  processed : Nat
  errors : Nat
  attempted : List String
  effs : List Eff
deriving DecidableEq

/-- The `for (const file of markdownFiles)` loop of recomputeAllVectors:
every file is attempted; a per-file failure is caught at the file boundary
and only bumps the error count. `vecOk` tells whether vectorizeNote for a
file succeeds and `vecEffs` gives the effects it emits either way. -/
def recomputeLoop (vecOk : String → Bool) (vecEffs : String → List Eff) :
    List String → BatchResult
  | [] => ⟨0, 0, [], []⟩
  | f :: rest =>
    let r := recomputeLoop vecOk vecEffs rest
    if vecOk f then ⟨r.processed + 1, r.errors, f :: r.attempted, vecEffs f ++ r.effs⟩
    else ⟨r.processed, r.errors + 1, f :: r.attempted, vecEffs f ++ r.effs⟩

/-- The per-file loop of refreshModifiedVectors: checkIfNeedsUpdate never
throws (it catches internally), vectorizeNote failures are caught per file.
Returns (updated count, error count, attempted files in order). -/
def refreshLoop (needs : String → Bool) (vecOk : String → Bool) :
    List String → Nat × Nat × List String
  | [] => (0, 0, [])
  | f :: rest =>
    let r := refreshLoop needs vecOk rest
    if needs f then
      if vecOk f then (r.1 + 1, r.2.1, f :: r.2.2) else (r.1, r.2.1 + 1, f :: r.2.2)
    else (r.1, r.2.1, f :: r.2.2)

/-- recomputeAllVectors: the confirmation gate returns before any notice,
network call, or touch of the readiness flag; then ensureCollection gates
the batch; the batch ends with the tally notice. Result: the batch outcome
(none when aborted), the readiness flag after the run, and the effects. -/
def recomputeAllVectors (confirmed : Bool) (inited : Bool) (name : String) (env : ChromaEnv)
    (vecOk : String → Bool) (vecEffs : String → List Eff) (files : List String) :
    Option BatchResult × Bool × List Eff :=
  if confirmed = false then (none, inited, [])
  else
    let e := ensureCollection inited name env
    if e.1 = false then (none, e.2.1, Eff.notice "Recomputing all vectors..." :: e.2.2)
    else
      let r := recomputeLoop vecOk vecEffs files
      (some r, e.2.1,
        Eff.notice "Recomputing all vectors..." :: e.2.2 ++ r.effs ++
          [Eff.notice ("Completed! Processed " ++ toString r.processed ++ " notes" ++
            (if r.errors > 0 then ", " ++ toString r.errors ++ " errors" else ""))])

/-- A record in the Milvus collection, as inserted by vectorizeNote. -/
structure VecRecord where
  id : String
  file_path : String
  content_preview : String
  modified_time : Int
  vector : List Rat
deriving DecidableEq

/-- A vault note as seen by vectorizeNote. -/
structure NoteFile where
  path : String
  content : String
  mtime : Int
deriving DecidableEq

/-- Whether the delete request of the Milvus vectorizeNote throws. A delete
that matches no record succeeds on the Milvus side, so that case is the
`ok` outcome applied to a store without the key. -/
inductive DelResult where
  | ok
  | failed
deriving DecidableEq

/-- `content.substring(0, 500).replace(/\n/g, ' ')`. -/
def contentPreview (content : String) : String :=
  ((content.toList.take 500).map (fun c => if c = '\n' then ' ' else c)).asString

/-- Effect of the Milvus delete-by-filter on the store contents. -/
def milvusDelete (store : List VecRecord) (path : String) : List VecRecord :=
  store.filter (fun r => r.file_path ≠ path)

/-- vectorizeNote of the Milvus variant: embed, then delete any record for
the key inside a try/catch whose catch block is empty, then insert. A
delete failure leaves the store as it was and never aborts the insert.
Returns (thrown?, final store, effects). -/
def vectorizeNoteMilvus (embResp : Except Unit OllamaEmbedResp) (delRes : DelResult)
    (insertOk : Bool) (store : List VecRecord) (f : NoteFile) :
    Except Unit Unit × List VecRecord × List Eff :=
  match generateEmbedding embResp with
  | .error _ => (.error (), store, [Eff.embedCall f.content])
  | .ok emb =>
    let store1 :=
      match delRes with
      | .ok => milvusDelete store f.path
      | .failed => store
    let effs := [Eff.embedCall f.content, Eff.storeCall "delete", Eff.storeCall "insert"]
    if insertOk then
      (.ok (), store1 ++ [⟨f.path, f.path, contentPreview f.content, f.mtime, emb⟩], effs)
    else
      (.error (), store1, effs)

/-- Splitting a list length by a predicate. -/
theorem length_filter_add_length_filter_not {α : Type} (p : α → Bool) (l : List α) :
    (l.filter p).length + (l.filter (fun a => !(p a))).length = l.length := by
  induction l with
  | nil => simp
  | cons a t ih =>
    by_cases ha : p a = true
    · simp [List.filter_cons, ha]
      omega
    · have ha2 : p a = false := by simpa using ha
      simp [List.filter_cons, ha2]
      omega

/-- dropWhile over a list all of whose elements satisfy the predicate. -/
theorem dropWhile_eq_nil_of_all {α : Type} (p : α → Bool) :
    ∀ l : List α, (∀ c ∈ l, p c = true) → l.dropWhile p = [] := by
  intro l
  induction l with
  | nil => intro _; rfl
  | cons a t ih =>
    intro h
    rw [List.dropWhile_cons, h a (List.mem_cons_self a t)]
    simp only [if_true]
    exact ih (fun c hc => h c (List.mem_cons_of_mem a hc))

/-- A string of JavaScript whitespace trims to the empty string. -/
theorem jsTrim_length_zero (s : String) (h : ∀ c ∈ s.toList, isJsWhitespace c = true) :
    (jsTrim s).length = 0 := by
  unfold jsTrim
  rw [dropWhile_eq_nil_of_all isJsWhitespace s.toList h]
  rfl

/-- Every element produced by the Chroma candidate loop is either carried
in from the accumulator or is the note of a candidate index whose file
path passed the falsy and exclusion guards. -/
theorem chromaCollect_mem (excl : Option String) (limit : Nat)
    (metas : List (Option ChromaMeta)) (dists : List Rat) :
    ∀ (idxs : List Nat) (acc : List SimilarNote) (r : SimilarNote),
      r ∈ chromaCollect excl limit metas dists idxs acc →
      r ∈ acc ∨ ∃ i, i ∈ idxs ∧
        jsFalsyStr (chromaFilePathAt metas i) = false ∧
        exclMatches excl (chromaFilePathAt metas i) = false ∧
        r = SimilarNote.mk (chromaFilePathAt metas i) (chromaScore (dists.get? i))
              (chromaContentAt metas i) := by
  intro idxs
  induction idxs with
  | nil =>
    intro acc r h
    exact Or.inl (by simpa [chromaCollect] using h)
  | cons i rest ih =>
    intro acc r h
    rw [chromaCollect] at h
    by_cases hskip :
        (jsFalsyStr (chromaFilePathAt metas i) || exclMatches excl (chromaFilePathAt metas i)) = true
    · rw [if_pos hskip] at h
      rcases ih acc r h with h1 | ⟨j, hj, hprops⟩
      · exact Or.inl h1
      · exact Or.inr ⟨j, List.mem_cons_of_mem _ hj, hprops⟩
    · rw [if_neg hskip] at h
      simp only [Bool.or_eq_true, not_or, Bool.not_eq_true] at hskip
      obtain ⟨hfp, hex⟩ := hskip
      by_cases hlim : limit ≤ (acc ++ [SimilarNote.mk (chromaFilePathAt metas i)
          (chromaScore (dists.get? i)) (chromaContentAt metas i)]).length
      · rw [if_pos hlim] at h
        rcases List.mem_append.mp h with h1 | h2
        · exact Or.inl h1
        · exact Or.inr ⟨i, List.mem_cons_self _ _, hfp, hex, by simpa using h2⟩
      · rw [if_neg hlim] at h
        rcases ih _ r h with h1 | ⟨j, hj, hprops⟩
        · rcases List.mem_append.mp h1 with h2 | h3
          · exact Or.inl h2
          · exact Or.inr ⟨i, List.mem_cons_self _ _, hfp, hex, by simpa using h3⟩
        · exact Or.inr ⟨j, List.mem_cons_of_mem _ hj, hprops⟩

/-- When the loop starts below the limit it never returns more than limit
results: the push happens only from below the limit, and the loop stops as
soon as the limit is reached. -/
theorem chromaCollect_length (excl : Option String) (limit : Nat)
    (metas : List (Option ChromaMeta)) (dists : List Rat) :
    ∀ (idxs : List Nat) (acc : List SimilarNote), acc.length < limit →
      (chromaCollect excl limit metas dists idxs acc).length ≤ limit := by
  intro idxs
  induction idxs with
  | nil =>
    intro acc hacc
    simpa [chromaCollect] using Nat.le_of_lt hacc
  | cons i rest ih =>
    intro acc hacc
    rw [chromaCollect]
    by_cases hskip :
        (jsFalsyStr (chromaFilePathAt metas i) || exclMatches excl (chromaFilePathAt metas i)) = true
    · rw [if_pos hskip]; exact ih acc hacc
    · rw [if_neg hskip]
      by_cases hlim : limit ≤ (acc ++ [SimilarNote.mk (chromaFilePathAt metas i)
          (chromaScore (dists.get? i)) (chromaContentAt metas i)]).length
      · rw [if_pos hlim]
        simp only [List.length_append, List.length_singleton]
        omega
      · rw [if_neg hlim]
        refine ih _ ?_
        simp only [List.length_append, List.length_singleton] at hlim ⊢
        omega

/-- Every element produced by one Milvus result group is carried in from
the accumulator or is the note of a hit that passed the exclusion guard. -/
theorem milvusInner_mem (excl : Option String) (limit : Nat) :
    ∀ (hits : List MilvusHit) (acc : List SimilarNote) (r : SimilarNote),
      r ∈ milvusInner excl limit hits acc →
      r ∈ acc ∨ ∃ h, h ∈ hits ∧ exclMatches excl h.file_path = false ∧ r = milvusNote h := by
  intro hits
  induction hits with
  | nil =>
    intro acc r h
    exact Or.inl (by simpa [milvusInner] using h)
  | cons hd rest ih =>
    intro acc r h
    rw [milvusInner] at h
    by_cases hex : exclMatches excl hd.file_path = true
    · rw [if_pos hex] at h
      rcases ih acc r h with h1 | ⟨j, hj, hprops⟩
      · exact Or.inl h1
      · exact Or.inr ⟨j, List.mem_cons_of_mem _ hj, hprops⟩
    · rw [if_neg hex] at h
      have hex2 : exclMatches excl hd.file_path = false := by simpa using hex
      by_cases hlim : limit ≤ (acc ++ [milvusNote hd]).length
      · rw [if_pos hlim] at h
        rcases List.mem_append.mp h with h1 | h2
        · exact Or.inl h1
        · exact Or.inr ⟨hd, List.mem_cons_self _ _, hex2, by simpa using h2⟩
      · rw [if_neg hlim] at h
        rcases ih _ r h with h1 | ⟨j, hj, hprops⟩
        · rcases List.mem_append.mp h1 with h2 | h3
          · exact Or.inl h2
          · exact Or.inr ⟨hd, List.mem_cons_self _ _, hex2, by simpa using h3⟩
        · exact Or.inr ⟨j, List.mem_cons_of_mem _ hj, hprops⟩

/-- Same bound for one Milvus group started below the limit. -/
theorem milvusInner_length (excl : Option String) (limit : Nat) :
    ∀ (hits : List MilvusHit) (acc : List SimilarNote), acc.length < limit →
      (milvusInner excl limit hits acc).length ≤ limit := by
  intro hits
  induction hits with
  | nil =>
    intro acc hacc
    simpa [milvusInner] using Nat.le_of_lt hacc
  | cons hd rest ih =>
    intro acc hacc
    rw [milvusInner]
    by_cases hex : exclMatches excl hd.file_path = true
    · rw [if_pos hex]; exact ih acc hacc
    · rw [if_neg hex]
      by_cases hlim : limit ≤ (acc ++ [milvusNote hd]).length
      · rw [if_pos hlim]
        simp only [List.length_append, List.length_singleton]
        omega
      · rw [if_neg hlim]
        refine ih _ ?_
        simp only [List.length_append, List.length_singleton] at hlim ⊢
        omega

/-- The inner Milvus loop only appends to its accumulator. -/
theorem milvusInner_append (excl : Option String) (limit : Nat) :
    ∀ (hits : List MilvusHit) (acc : List SimilarNote),
      ∃ t, milvusInner excl limit hits acc = acc ++ t := by
  intro hits
  induction hits with
  | nil => intro acc; exact ⟨[], by simp [milvusInner]⟩
  | cons hd rest ih =>
    intro acc
    rw [milvusInner]
    by_cases hex : exclMatches excl hd.file_path = true
    · rw [if_pos hex]; exact ih acc
    · rw [if_neg hex]
      by_cases hlim : limit ≤ (acc ++ [milvusNote hd]).length
      · rw [if_pos hlim]; exact ⟨[milvusNote hd], rfl⟩
      · rw [if_neg hlim]
        obtain ⟨t, ht⟩ := ih (acc ++ [milvusNote hd])
        exact ⟨[milvusNote hd] ++ t, by rw [ht, List.append_assoc]⟩

/-- Every element produced by the outer Milvus loop is carried in from the
accumulator or comes from some non-null result group. -/
theorem milvusOuter_mem (excl : Option String) (limit : Nat) :
    ∀ (items : List (Option (List MilvusHit))) (acc : List SimilarNote) (r : SimilarNote),
      r ∈ milvusOuter excl limit items acc →
      r ∈ acc ∨ ∃ hs, some hs ∈ items ∧
        ∃ h, h ∈ hs ∧ exclMatches excl h.file_path = false ∧ r = milvusNote h := by
  intro items
  induction items with
  | nil =>
    intro acc r h
    exact Or.inl (by simpa [milvusOuter] using h)
  | cons item rest ih =>
    intro acc r h
    rcases item with _ | hits
    · rw [milvusOuter] at h
      rcases ih acc r h with h1 | ⟨hs, hhs, hprops⟩
      · exact Or.inl h1
      · exact Or.inr ⟨hs, List.mem_cons_of_mem _ hhs, hprops⟩
    · rw [milvusOuter] at h
      by_cases hempty : hits.length = 0
      · rw [if_pos hempty] at h
        rcases ih acc r h with h1 | ⟨hs, hhs, hprops⟩
        · exact Or.inl h1
        · exact Or.inr ⟨hs, List.mem_cons_of_mem _ hhs, hprops⟩
      · rw [if_neg hempty] at h
        rcases ih _ r h with h1 | ⟨hs, hhs, hprops⟩
        · rcases milvusInner_mem excl limit hits acc r h1 with h2 | ⟨j, hj, hprops2⟩
          · exact Or.inl h2
          · exact Or.inr ⟨hits, List.mem_cons_self _ _, j, hj, hprops2⟩
        · exact Or.inr ⟨hs, List.mem_cons_of_mem _ hhs, hprops⟩

/-- The recompute loop attempts every file and tallies successes and
failures exactly. -/
theorem recomputeLoop_spec (vecOk : String → Bool) (vecEffs : String → List Eff) :
    ∀ files : List String,
      (recomputeLoop vecOk vecEffs files).attempted = files ∧
      (recomputeLoop vecOk vecEffs files).processed = (files.filter vecOk).length ∧
      (recomputeLoop vecOk vecEffs files).errors =
        (files.filter (fun f => !(vecOk f))).length := by
  intro files
  induction files with
  | nil => refine ⟨rfl, rfl, rfl⟩
  | cons f rest ih =>
    obtain ⟨h1, h2, h3⟩ := ih
    by_cases hf : vecOk f = true
    · simp [recomputeLoop, hf, h1, h2, h3, List.filter_cons]
    · have hf2 : vecOk f = false := by simpa using hf
      simp [recomputeLoop, hf2, h1, h2, h3, List.filter_cons]

/-- The refresh loop attempts every file regardless of per-file outcomes. -/
theorem refreshLoop_attempted (needs vecOk : String → Bool) :
    ∀ files : List String, (refreshLoop needs vecOk files).2.2 = files := by
  intro files
  induction files with
  | nil => rfl
  | cons f rest ih =>
    by_cases hn : needs f = true
    · by_cases hv : vecOk f = true <;> simp [refreshLoop, hn, hv, ih]
    · have hn2 : needs f = false := by simpa using hn
      simp [refreshLoop, hn2, ih]

/-- A candidate that passed both guards of the Chroma loop has a nonempty
file path different from the exclusion key. -/
theorem pushedNote_filePath_ne (fp : Option String) (e : String)
    (hfp : jsFalsyStr fp = false) (hex : exclMatches (some e) fp = false) : fp ≠ some e := by
  cases fp with
  | none => simp
  | some s =>
    intro hcon
    injection hcon with hse
    subst hse
    by_cases he : s = ""
    · rw [he] at hfp
      simp [jsFalsyStr] at hfp
    · simp [exclMatches, he] at hex

/-- Claim C1 (amended): staleness is decided as the claim states except in
two places forced by the code. In the Chroma variant the equal and
strictly-less clauses hold only for a nonzero stored modified time, because
a stored time of 0 is falsy and is treated like an absent one (stale). In
the Milvus variant a record whose stored modified time is absent compares
as NaN and is reported NOT stale, the opposite of the claim. All remaining
clauses (no record, absent metadata in the Chroma variant, strictly
greater, and any error while checking) hold as stated. -/
theorem checkIfNeedsUpdate_amended :
    (∀ mtime : Int, checkIfNeedsUpdateChroma mtime (.error ()) = true) ∧
    (∀ (mtime : Int) (metas : Option (List (Option ChromaMeta))),
      checkIfNeedsUpdateChroma mtime (.ok ⟨none, metas⟩) = true ∧
      checkIfNeedsUpdateChroma mtime (.ok ⟨some [], metas⟩) = true) ∧
    (∀ (mtime : Int) (ids : List String) (metas : Option (List (Option ChromaMeta))),
      metas.bind List.head? = none ∨ metas.bind List.head? = some none →
      checkIfNeedsUpdateChroma mtime (.ok ⟨some ids, metas⟩) = true) ∧
    (∀ (mtime : Int) (key : String) (ids : List String) (rest : List (Option ChromaMeta))
        (m : ChromaMeta), m.modified_time = none →
      checkIfNeedsUpdateChroma mtime (.ok ⟨some (key :: ids), some (some m :: rest)⟩) = true) ∧
    (∀ (mtime : Int) (key : String) (ids : List String) (rest : List (Option ChromaMeta))
        (m : ChromaMeta), m.modified_time = some 0 →
      checkIfNeedsUpdateChroma mtime (.ok ⟨some (key :: ids), some (some m :: rest)⟩) = true) ∧
    (∀ (mtime t : Int) (key : String) (ids : List String) (rest : List (Option ChromaMeta))
        (m : ChromaMeta), m.modified_time = some t → t ≠ 0 →
      checkIfNeedsUpdateChroma mtime (.ok ⟨some (key :: ids), some (some m :: rest)⟩) =
        decide (mtime > t)) ∧
    (∀ mtime : Int, checkIfNeedsUpdateMilvus mtime (.error ()) = true) ∧
    (∀ mtime : Int, checkIfNeedsUpdateMilvus mtime (.ok none) = true ∧
      checkIfNeedsUpdateMilvus mtime (.ok (some [])) = true) ∧
    (∀ (mtime : Int) (row : MilvusRow) (rest : List MilvusRow), row.modified_time = none →
      checkIfNeedsUpdateMilvus mtime (.ok (some (row :: rest))) = false) ∧
    (∀ (mtime t : Int) (row : MilvusRow) (rest : List MilvusRow), row.modified_time = some t →
      checkIfNeedsUpdateMilvus mtime (.ok (some (row :: rest))) = decide (mtime > t)) := by
  refine ⟨?_, ?_, ?_, ?_, ?_, ?_, ?_, ?_, ?_, ?_⟩
  · intro mtime; rfl
  · intro mtime metas; exact ⟨rfl, rfl⟩
  · intro mtime ids metas h
    cases ids with
    | nil => rfl
    | cons k ks => rcases h with h | h <;> simp [checkIfNeedsUpdateChroma, h]
  · intro mtime key ids rest m h
    simp [checkIfNeedsUpdateChroma, h]
  · intro mtime key ids rest m h
    simp [checkIfNeedsUpdateChroma, h]
  · intro mtime t key ids rest m h ht
    simp [checkIfNeedsUpdateChroma, h, ht]
  · intro mtime; rfl
  · intro mtime; exact ⟨rfl, rfl⟩
  · intro mtime row rest h
    simp [checkIfNeedsUpdateMilvus, jsGtOpt, h]
  · intro mtime t row rest h
    simp [checkIfNeedsUpdateMilvus, jsGtOpt, h]

/-- Claim C1 witness: the amended theorem applied at concrete inputs, one
per variant. -/
theorem checkIfNeedsUpdate_amended_witness :
    checkIfNeedsUpdateChroma 5
      (.ok ⟨some ["k.md"], some [some ⟨none, none, some 3⟩]⟩) = decide ((5 : Int) > 3) ∧
    checkIfNeedsUpdateMilvus 5 (.ok (some [⟨none⟩])) = false := by
  obtain ⟨-, -, -, -, -, h6, -, -, h9, -⟩ := checkIfNeedsUpdate_amended
  exact ⟨h6 5 3 "k.md" [] [] ⟨none, none, some 3⟩ rfl (by decide), h9 5 ⟨none⟩ [] rfl⟩

/-- Claim C1 counterexample: a document whose lastModified (0) is exactly
equal to the stored modified time (0) must, by the claim, NOT be stale, yet
the Chroma variant reports true because the stored 0 is falsy. -/
theorem checkIfNeedsUpdate_equal_zero_cex :
    checkIfNeedsUpdateChroma 0
      (.ok ⟨some ["note.md"], some [some ⟨some "note.md", some "", some 0⟩]⟩) = true := by
  decide

/-- Claim C10: in the Chroma variant a stored record whose modified_time is
the number 0 is handled by the same falsy branch as a record with no
modified time at all, so the document is reported stale for every value of
its own last-modified timestamp. -/
theorem checkIfNeedsUpdate_zero_time_stale (mtime : Int) (key : String) (m : ChromaMeta)
    (h : m.modified_time = some 0) :
    checkIfNeedsUpdateChroma mtime (.ok ⟨some [key], some [some m]⟩) = true ∧
    checkIfNeedsUpdateChroma mtime
      (.ok ⟨some [key], some [some ⟨m.file_path, m.content_preview, none⟩]⟩) = true := by
  constructor
  · simp [checkIfNeedsUpdateChroma, h]
  · simp [checkIfNeedsUpdateChroma]

/-- Claim C10 witness: a record stored with modified_time 0 is stale even
for a far larger document timestamp. -/
theorem checkIfNeedsUpdate_zero_time_stale_witness :
    checkIfNeedsUpdateChroma 999
      (.ok ⟨some ["a.md"], some [some ⟨some "a.md", some "", some 0⟩]⟩) = true :=
  (checkIfNeedsUpdate_zero_time_stale 999 "a.md" ⟨some "a.md", some "", some 0⟩ rfl).1

/-- Claim C9: in the Chroma variant a candidate whose distance entry is
absent from the response is scored as `1 - (undefined || 0) = 1`, i.e. it
is reported with maximal similarity rather than skipped. -/
theorem searchSimilar_missing_distance_scores_one :
    chromaScore none = 1 ∧
    (∀ (data : ChromaQueryData) (limit : Nat) (excl : Option String) (r : SimilarNote),
      chromaDists data = [] → r ∈ searchSimilarChroma data limit excl → r.score = 1) := by
  constructor
  · norm_num [chromaScore, jsOrRat]
  · intro data limit excl r hd hr
    obtain ⟨ids, metas, dists⟩ := data
    cases ids with
    | none => simp [searchSimilarChroma] at hr
    | some idss =>
      cases idss with
      | nil => simp [searchSimilarChroma] at hr
      | cons i0 t =>
        simp only [searchSimilarChroma] at hr
        rcases chromaCollect_mem excl limit (chromaMetas ⟨some (i0 :: t), metas, dists⟩)
            (chromaDists ⟨some (i0 :: t), metas, dists⟩) (List.range i0.length) [] r hr with
          h1 | ⟨i, -, -, -, heq⟩
        · simp at h1
        · rw [heq]
          simp only [hd]
          simp [List.get?, chromaScore, jsOrRat]

/-- Claim C9 witness: a response with one candidate and no distances array
yields one result with score 1. -/
theorem searchSimilar_missing_distance_scores_one_witness :
    (SimilarNote.mk (some "a.md") (chromaScore none) "").score = 1 := by
  obtain ⟨-, h2⟩ := searchSimilar_missing_distance_scores_one
  exact h2 ⟨some [["a"]], some [[some ⟨some "a.md", none, none⟩]], none⟩ 10 none
    ⟨some "a.md", chromaScore none, ""⟩ rfl (List.Mem.head _)

/-- Claim C2 (amended): in both variants a result whose filePath equals a
nonempty exclusion key is never returned (in the Chroma variant this holds
even for an empty exclusion key, because falsy keys are skipped there).
The length bound `at most limit` holds for the Chroma variant whenever
limit is at least 1, and for the Milvus variant whenever limit is at least
1 and the response carries a single result group; it fails at limit 0 (see
the counterexample) because both loops push a candidate before checking
the limit, and the Milvus inner break does not stop the outer loop. -/
theorem searchSimilar_exclusion_amended :
    (∀ (data : ChromaQueryData) (limit : Nat) (e : String) (r : SimilarNote),
      r ∈ searchSimilarChroma data limit (some e) → r.filePath ≠ some e) ∧
    (∀ (data : ChromaQueryData) (limit : Nat) (excl : Option String),
      1 ≤ limit → (searchSimilarChroma data limit excl).length ≤ limit) ∧
    (∀ (data : Option (List (Option (List MilvusHit)))) (limit : Nat) (e : String)
        (r : SimilarNote), e ≠ "" → r ∈ searchSimilarMilvus data limit (some e) →
      r.filePath ≠ some e) ∧
    (∀ (hits : List MilvusHit) (limit : Nat) (excl : Option String), 1 ≤ limit →
      (searchSimilarMilvus (some [some hits]) limit excl).length ≤ limit) := by
  refine ⟨?_, ?_, ?_, ?_⟩
  · intro data limit e r hr
    obtain ⟨ids, metas, dists⟩ := data
    cases ids with
    | none => simp [searchSimilarChroma] at hr
    | some idss =>
      cases idss with
      | nil => simp [searchSimilarChroma] at hr
      | cons i0 t =>
        simp only [searchSimilarChroma] at hr
        rcases chromaCollect_mem (some e) limit (chromaMetas ⟨some (i0 :: t), metas, dists⟩)
            (chromaDists ⟨some (i0 :: t), metas, dists⟩) (List.range i0.length) [] r hr with
          h1 | ⟨i, -, hfp, hex, heq⟩
        · simp at h1
        · rw [heq]
          exact pushedNote_filePath_ne _ e hfp hex
  · intro data limit excl hlim
    obtain ⟨ids, metas, dists⟩ := data
    cases ids with
    | none => simp [searchSimilarChroma]
    | some idss =>
      cases idss with
      | nil => simp [searchSimilarChroma]
      | cons i0 t =>
        simp only [searchSimilarChroma]
        exact chromaCollect_length excl limit (chromaMetas ⟨some (i0 :: t), metas, dists⟩)
          (chromaDists ⟨some (i0 :: t), metas, dists⟩) (List.range i0.length) []
          (by simpa using hlim)
  · intro data limit e r he hr
    simp only [searchSimilarMilvus] at hr
    rcases milvusOuter_mem (some e) limit (data.getD []) [] r hr with
      h1 | ⟨hs, -, h, -, hex, heq⟩
    · simp at h1
    · rw [heq]
      simp only [milvusNote]
      simp only [exclMatches, if_neg he] at hex
      simpa using hex
  · intro hits limit excl hlim
    simp only [searchSimilarMilvus, Option.getD_some]
    rw [milvusOuter]
    by_cases hempty : hits.length = 0
    · rw [if_pos hempty, milvusOuter]
      simp
    · rw [if_neg hempty, milvusOuter]
      exact milvusInner_length excl limit hits [] (by simpa using hlim)

/-- Claim C2 witness: the length bound applied at limit 1 on a two
candidate response. -/
theorem searchSimilar_exclusion_amended_witness :
    (searchSimilarChroma ⟨some [["a", "b"]],
      some [[some ⟨some "a.md", some "", none⟩, some ⟨some "b.md", some "", none⟩]],
      none⟩ 1 (some "x.md")).length ≤ 1 := by
  obtain ⟨-, h2, -, -⟩ := searchSimilar_exclusion_amended
  exact h2 ⟨some [["a", "b"]],
    some [[some ⟨some "a.md", some "", none⟩, some ⟨some "b.md", some "", none⟩]],
    none⟩ 1 (some "x.md") (by decide)

/-- Claim C2 counterexample: at limit 0 with an exclusion key the Chroma
variant still returns one result, exceeding the limit, because the
candidate is pushed before the limit check. -/
theorem searchSimilar_limit_zero_cex :
    ¬ ((searchSimilarChroma ⟨some [["b"]], some [[some ⟨some "b.md", some "", none⟩]], none⟩
      0 (some "a.md")).length ≤ 0) := by
  decide

/-- Claim C3 (amended): the Chroma variant does skip every candidate whose
key is missing, null, or empty in addition to the excluded key, and (for
limit at least 1) stops once limit results are collected. The Milvus
variant does NOT: it checks only the exclusion key, so a candidate whose
file_path is absent is pushed as the next result. -/
theorem searchSimilar_skip_missing_key_amended :
    (∀ (data : ChromaQueryData) (limit : Nat) (excl : Option String) (r : SimilarNote),
      r ∈ searchSimilarChroma data limit excl → ∃ s, r.filePath = some s ∧ s ≠ "") ∧
    (∀ (data : ChromaQueryData) (limit : Nat) (excl : Option String),
      1 ≤ limit → (searchSimilarChroma data limit excl).length ≤ limit) ∧
    (∀ (hit : MilvusHit) (rest : List MilvusHit) (limit : Nat) (excl : Option String),
      hit.file_path = none →
      (searchSimilarMilvus (some [some (hit :: rest)]) limit excl).headD
        ⟨some "x", 0, "x"⟩ = milvusNote hit) := by
  refine ⟨?_, ?_, ?_⟩
  · intro data limit excl r hr
    obtain ⟨ids, metas, dists⟩ := data
    cases ids with
    | none => simp [searchSimilarChroma] at hr
    | some idss =>
      cases idss with
      | nil => simp [searchSimilarChroma] at hr
      | cons i0 t =>
        simp only [searchSimilarChroma] at hr
        rcases chromaCollect_mem excl limit (chromaMetas ⟨some (i0 :: t), metas, dists⟩)
            (chromaDists ⟨some (i0 :: t), metas, dists⟩) (List.range i0.length) [] r hr with
          h1 | ⟨i, -, hfp, -, heq⟩
        · simp at h1
        · rw [heq]
          cases hfpv : chromaFilePathAt (chromaMetas ⟨some (i0 :: t), metas, dists⟩) i with
          | none => rw [hfpv] at hfp; simp [jsFalsyStr] at hfp
          | some s =>
            rw [hfpv] at hfp
            simp only [jsFalsyStr] at hfp
            exact ⟨s, by simp [hfpv], by simpa using hfp⟩
  · intro data limit excl hlim
    obtain ⟨ids, metas, dists⟩ := data
    cases ids with
    | none => simp [searchSimilarChroma]
    | some idss =>
      cases idss with
      | nil => simp [searchSimilarChroma]
      | cons i0 t =>
        simp only [searchSimilarChroma]
        exact chromaCollect_length excl limit (chromaMetas ⟨some (i0 :: t), metas, dists⟩)
          (chromaDists ⟨some (i0 :: t), metas, dists⟩) (List.range i0.length) []
          (by simpa using hlim)
  · intro hit rest limit excl hfp
    have hex : exclMatches excl hit.file_path = false := by
      rw [hfp]
      cases excl with
      | none => rfl
      | some e => by_cases he : e = "" <;> simp [exclMatches, he]
    simp only [searchSimilarMilvus, Option.getD_some]
    rw [milvusOuter, if_neg (by simp), milvusOuter, milvusInner, if_neg (by simp [hex])]
    by_cases hlim : limit ≤ (([] : List SimilarNote) ++ [milvusNote hit]).length
    · rw [if_pos hlim]
      rfl
    · rw [if_neg hlim]
      obtain ⟨tl, htl⟩ := milvusInner_append excl limit rest ([] ++ [milvusNote hit])
      rw [htl]
      rfl

/-- Claim C3 witness: the Chroma skip property applied on a one candidate
response with a present, nonempty key. -/
theorem searchSimilar_skip_missing_key_amended_witness :
    ∃ s, (SimilarNote.mk (some "b.md") (chromaScore none) "").filePath = some s ∧ s ≠ "" := by
  obtain ⟨h1, -, -⟩ := searchSimilar_skip_missing_key_amended
  exact h1 ⟨some [["b"]], some [[some ⟨some "b.md", none, none⟩]], none⟩ 10 none
    ⟨some "b.md", chromaScore none, ""⟩ (List.Mem.head _)

/-- Claim C3 counterexample: the Milvus variant returns a result whose key
is missing (filePath none) instead of skipping the malformed candidate. -/
theorem searchSimilar_missing_key_included_cex :
    searchSimilarMilvus (some [some [⟨none, none, none⟩]]) 5 (some "a.md") =
      [⟨none, 0, ""⟩] := by
  rfl

/-- Claim C4: the Chroma backend is configured with the cosine metric and
its response carries cosine distances; every returned result is scored by
`chromaScore` applied to the distance entry of its candidate, and for a
present distance d that score is exactly 1 - d, so distance 0.2 gives
similarity 0.8, i.e. 80 percent. (The Milvus backend with metric COSINE
returns similarities, not distances, and is outside this claim.) -/
theorem searchSimilar_score_normalization :
    (∀ d : Rat, chromaScore (some d) = 1 - d) ∧
    (∀ (data : ChromaQueryData) (limit : Nat) (excl : Option String) (r : SimilarNote),
      r ∈ searchSimilarChroma data limit excl →
      ∃ i, r.score = chromaScore ((chromaDists data).get? i)) ∧
    chromaScore (some (2/10 : Rat)) = 8/10 ∧ ((8 : Rat)/10) * 100 = 80 := by
  refine ⟨?_, ?_, by norm_num [chromaScore, jsOrRat], by norm_num⟩
  · intro d
    by_cases hd : d = 0
    · subst hd; simp [chromaScore, jsOrRat]
    · simp [chromaScore, jsOrRat, hd]
  · intro data limit excl r hr
    obtain ⟨ids, metas, dists⟩ := data
    cases ids with
    | none => simp [searchSimilarChroma] at hr
    | some idss =>
      cases idss with
      | nil => simp [searchSimilarChroma] at hr
      | cons i0 t =>
        simp only [searchSimilarChroma] at hr
        rcases chromaCollect_mem excl limit (chromaMetas ⟨some (i0 :: t), metas, dists⟩)
            (chromaDists ⟨some (i0 :: t), metas, dists⟩) (List.range i0.length) [] r hr with
          h1 | ⟨i, -, -, -, heq⟩
        · simp at h1
        · exact ⟨i, by rw [heq]⟩

/-- Claim C4 witness: on a one candidate response with distance 1/5 the
returned score is the normalized 1 - 1/5. -/
theorem searchSimilar_score_normalization_witness :
    ∃ i, (SimilarNote.mk (some "b.md") (chromaScore (some ((1 : Rat)/5))) "").score =
      chromaScore ((chromaDists ⟨some [["b"]], some [[some ⟨some "b.md", none, none⟩]],
        some [[(1 : Rat)/5]]⟩).get? i) := by
  obtain ⟨-, h2, -, -⟩ := searchSimilar_score_normalization
  exact h2 ⟨some [["b"]], some [[some ⟨some "b.md", none, none⟩]], some [[(1 : Rat)/5]]⟩
    10 none ⟨some "b.md", chromaScore (some ((1 : Rat)/5)), ""⟩ (List.Mem.head _)

/-- Claim C6: querySimilarNotes called with an empty or whitespace-only
query performs zero network calls (no embedding request, no store request)
and reports the validation notice, whatever the servers would answer. -/
theorem querySimilarNotes_rejects_blank (query : String) (inited : Bool) (name : String)
    (env : ChromaEnv) (embResp : Except Unit OllamaEmbedResp)
    (qresp : Except Unit ChromaQueryData)
    (h : query.isEmpty = true ∨ ∀ c ∈ query.toList, isJsWhitespace c = true) :
    querySimilarNotes query inited name env embResp qresp = [Eff.notice "Please enter a query"] ∧
    (querySimilarNotes query inited name env embResp qresp).filter Eff.isNetwork = [] := by
  have hguard : query.isEmpty = true ∨ (jsTrim query).length = 0 := by
    rcases h with h | h
    · exact Or.inl h
    · exact Or.inr (jsTrim_length_zero query h)
  constructor
  · rw [querySimilarNotes, if_pos hguard]
  · rw [querySimilarNotes, if_pos hguard]
    rfl

/-- Claim C6 witness: the whitespace-only query of three spaces is
rejected with the validation notice alone. -/
theorem querySimilarNotes_rejects_blank_witness :
    querySimilarNotes "   " false "overseer_dev" ⟨.error (), .error ()⟩ (.error ())
      (.error ()) = [Eff.notice "Please enter a query"] :=
  (querySimilarNotes_rejects_blank "   " false "overseer_dev" ⟨.error (), .error ()⟩
    (.error ()) (.error ()) (Or.inr (by decide))).1

/-- Claim C7: when the user declines the confirmation prompt,
recomputeAllVectors returns at once: no notice, no embedding or store
call, and the readiness flag is returned exactly as it was. -/
theorem recomputeAll_declined_no_effects (inited : Bool) (name : String) (env : ChromaEnv)
    (vecOk : String → Bool) (vecEffs : String → List Eff) (files : List String) :
    recomputeAllVectors false inited name env vecOk vecEffs files = (none, inited, []) := rfl

/-- Claim C5: with the confirmation given and the collection ready, the
recompute batch attempts every file in order; when exactly one file fails
the tally is processed = N - 1 and errors = 1; and the refresh loop
likewise attempts every file regardless of per-file failures. -/
theorem recompute_batch_isolation (name : String) (env : ChromaEnv)
    (vecOk needs : String → Bool) (vecEffs : String → List Eff) (files : List String)
    (h : (files.filter (fun f => !(vecOk f))).length = 1) :
    (recomputeAllVectors true true name env vecOk vecEffs files).1 =
      some (recomputeLoop vecOk vecEffs files) ∧
    (recomputeLoop vecOk vecEffs files).attempted = files ∧
    (recomputeLoop vecOk vecEffs files).processed = files.length - 1 ∧
    (recomputeLoop vecOk vecEffs files).errors = 1 ∧
    (refreshLoop needs vecOk files).2.2 = files := by
  obtain ⟨h1, h2, h3⟩ := recomputeLoop_spec vecOk vecEffs files
  have hsum := length_filter_add_length_filter_not vecOk files
  refine ⟨rfl, h1, ?_, ?_, refreshLoop_attempted needs vecOk files⟩
  · rw [h2]; omega
  · rw [h3, h]

/-- Claim C5 witness: three files of which exactly the middle one fails
give processed = 2 and errors = 1. -/
theorem recompute_batch_isolation_witness :
    (recomputeLoop (fun f => !(f == "b.md")) (fun _ => []) ["a.md", "b.md", "c.md"]).processed
      = 2 ∧
    (recomputeLoop (fun f => !(f == "b.md")) (fun _ => []) ["a.md", "b.md", "c.md"]).errors
      = 1 := by
  obtain ⟨-, -, hp, he, -⟩ := recompute_batch_isolation "col" ⟨.error (), .error ()⟩
    (fun f => !(f == "b.md")) (fun _ => true) (fun _ => []) ["a.md", "b.md", "c.md"] (by decide)
  refine ⟨?_, he⟩
  rw [hp]
  rfl

/-- Claim C8: in the Milvus vectorizeNote the delete runs inside a
try/catch with an empty catch, so a failed delete (and equally a delete
that matched nothing) never aborts the call: when embedding succeeded and
the insert succeeds, the call returns ok, the insert request is issued, and
the store afterwards holds a queryable record for the file key. -/
theorem vectorizeNote_delete_not_abort (embResp : Except Unit OllamaEmbedResp)
    (delRes : DelResult) (store : List VecRecord) (f : NoteFile) (emb : List Rat)
    (h : generateEmbedding embResp = .ok emb) :
    (vectorizeNoteMilvus embResp delRes true store f).1 = .ok () ∧
    Eff.storeCall "insert" ∈ (vectorizeNoteMilvus embResp delRes true store f).2.2 ∧
    ∃ r, r ∈ (vectorizeNoteMilvus embResp delRes true store f).2.1 ∧
      r.id = f.path ∧ r.file_path = f.path ∧ r.vector = emb := by
  simp only [vectorizeNoteMilvus, h]
  refine ⟨rfl, ?_, ?_⟩
  · exact List.mem_cons_of_mem _ (List.mem_cons_of_mem _ (List.mem_cons_self _ _))
  · refine ⟨⟨f.path, f.path, contentPreview f.content, f.mtime, emb⟩, ?_, rfl, rfl, rfl⟩
    simp

/-- Claim C8 witness: a failed delete on an empty store with a successful
embedding still ends in ok. -/
theorem vectorizeNote_delete_not_abort_witness :
    (vectorizeNoteMilvus (.ok ⟨some [[1]], none⟩) DelResult.failed true []
      ⟨"a.md", "hello", 5⟩).1 = .ok () :=
  (vectorizeNote_delete_not_abort (.ok ⟨some [[1]], none⟩) DelResult.failed []
    ⟨"a.md", "hello", 5⟩ [1] rfl).1
